import Mathlib

/-!
# Weather-Data-Pipeline: a shallow embedding with proofs

This development embeds the core of the Weather-Data-Pipeline repository
(validator, storage write path, storage queries, and the orchestration of a
single collection cycle) as executable Lean definitions, and proves the
behavioural properties stated about them.

Modelling conventions:
- Python dictionary records are a fixed structure of `Option Val` fields:
  `none` means the key is absent, `some Val.vNone` means the key is present
  with value `None`.
- Python floats are modelled exactly as rationals; float overflow and the
  special values inf/nan are outside the model, as is the exponent syntax of
  the string-to-float parser.
- `datetime` values are modelled as epoch seconds (a rational).
  `datetime.fromtimestamp` is fallible: it raises for epoch values outside
  the range representable by `datetime` (years 1 to 9999); the model bounds
  are `tsMinEpoch` and `tsMaxEpoch` (the microsecond boundary at the upper
  end is approximated by a strict comparison on whole seconds).
- Fallible code returns `Except String`.
-/

deriving instance DecidableEq for Except

namespace WeatherPipeline

/-- A Python runtime value as it occurs in the weather-record dictionaries:
an int, a float (exact rational), a string, a timezone-aware datetime
(epoch seconds), or the value None. -/
inductive Val where
  | vInt (n : ℤ)
  | vFloat (q : ℚ)
  | vStr (s : String)
  | vDT (t : ℚ)
  | vNone
deriving DecidableEq, Repr

open Val

/-- A weather record dictionary. Each field is `none` when the key is absent
and `some vNone` when the key is present with value `None`. These fourteen
keys are exactly the ones read or written by the validator and the storage
write path. -/
structure Rec where
  city : Option Val
  country : Option Val
  timestamp : Option Val
  temperature : Option Val
  temperature_celsius : Option Val
  feels_like : Option Val
  humidity : Option Val
  pressure : Option Val
  visibility : Option Val
  wind_speed : Option Val
  wind_direction : Option Val
  cloudiness : Option Val
  description : Option Val
  weather_main : Option Val
deriving DecidableEq, Repr

/-! ## Python string stripping (str.strip) -/

/-- The whitespace characters stripped by the Python str.strip method. -/
def isPySpace (c : Char) : Bool :=
  c = ' ' || c = '\t' || c = '\n' || c = '\r' || c = '\x0b' || c = '\x0c'

/-- Remove leading and trailing whitespace from a character list. -/
def stripList (l : List Char) : List Char :=
  ((l.dropWhile isPySpace).reverse.dropWhile isPySpace).reverse

/-- The Python str.strip method. -/
def pystrip (s : String) : String := ⟨stripList s.data⟩

/-! ## Python float() on the modelled values -/

/-- Numeric value of a digit run. -/
def digitsToNat (l : List Char) : ℕ :=
  l.foldl (fun a c => 10 * a + (c.toNat - 48)) 0

/-- A non-empty run of decimal digits. -/
def allDigits (l : List Char) : Bool := l.all (fun c => c.isDigit)

/-- Parse an unsigned decimal literal: digits, digits-dot-digits, dot-digits
or digits-dot. Exponent and underscore syntax are outside the model. -/
def parseUnsigned (l : List Char) : Option ℚ :=
  if l.contains '.' then
    let ip := l.takeWhile (fun c => c ≠ '.')
    let fp := (l.dropWhile (fun c => c ≠ '.')).drop 1
    if fp.contains '.' then none
    else if allDigits ip && allDigits fp && (!ip.isEmpty || !fp.isEmpty) then
      some ((digitsToNat ip : ℚ) + (digitsToNat fp : ℚ) / (10 ^ fp.length : ℚ))
    else none
  else if allDigits l && !l.isEmpty then some (digitsToNat l : ℚ) else none

/-- The Python float(str) conversion: strips whitespace, then an optional
sign and a decimal literal. Returns `none` where Python raises ValueError. -/
def parseFloatStr (s : String) : Option ℚ :=
  match stripList s.data with
  | [] => none
  | '+' :: rest => parseUnsigned rest
  | '-' :: rest => (parseUnsigned rest).map (fun q => -q)
  | l => parseUnsigned l

/-- The Python float() conversion on a modelled value. Returns `none` where
Python raises ValueError or TypeError (strings that do not parse, None,
datetime objects). -/
def pyFloat : Val → Option ℚ
  | vInt n => some (n : ℚ)
  | vFloat q => some q
  | vStr s => parseFloatStr s
  | vDT _ => none
  | vNone => none

/-- The Python str() conversion on a modelled value. Only the rendering of
strings (the identity) matters for the properties proved; the rendering of
the other constructors is a fixed deterministic stand-in. -/
def pyStr : Val → String
  | vStr s => s
  | vInt n => toString n
  | vFloat q => toString q
  | vDT t => "datetime(" ++ toString t ++ ")"
  | vNone => "None"

/-! ## datetime.fromtimestamp domain -/

/-- Smallest epoch value representable by datetime (0001-01-01T00:00:00Z). -/
def tsMinEpoch : ℚ := -62135596800

/-- One past the largest epoch second representable by datetime
(9999-12-31T23:59:59.999999Z, approximated at whole seconds). -/
def tsMaxEpoch : ℚ := 253402300800

/-- Whether datetime.fromtimestamp accepts the epoch value without raising. -/
def fromtsOK (q : ℚ) : Bool := decide (tsMinEpoch ≤ q) && decide (q < tsMaxEpoch)

/-! ## Validator: WeatherDataValidator.validate_weather_data -/

/-- A required-field presence check: the key exists and its value is not
None (the `field not in data or data[field] is None` test). -/
def notNullPresent : Option Val → Bool
  | none => false
  | some vNone => false
  | some _ => true

/-- float() applied to a field looked up by key (absent key behaves as a
conversion failure; in the source the presence checks have already returned
False in that case, so the overall result agrees). -/
def optFloat (o : Option Val) : Option ℚ := o.bind pyFloat

/-- One range-check step of the try block: convert, return False when out of
the closed range, otherwise continue; `none` models an uncaught conversion
outcome turning into the except branch. -/
def gate (o : Option ℚ) (lo hi : ℚ) (k : Option Bool) : Option Bool :=
  match o with
  | none => none
  | some t => if t < lo ∨ hi < t then some false else k

/-- The wind_speed value as seen by the `data.get(..) is not None` test:
`some v` exactly when the key is present with a non-None value. -/
def effWind : Option Val → Option Val
  | none => none
  | some v => if v = vNone then none else some v

/-- The cloudiness range check, on `data.get(cloudiness, 0)`. -/
def cloudCheck (d : Rec) : Option Bool :=
  gate (pyFloat (d.cloudiness.getD (vInt 0))) 0 100 (some true)

/-- The try block of validate_weather_data: temperature, humidity and
pressure range checks, then wind_speed when present, then cloudiness.
`some b` is a normal return of `b`; `none` is the except branch. -/
def rangeChecks (d : Rec) : Option Bool :=
  gate (optFloat d.temperature_celsius) (-100) 60
    (gate (optFloat d.humidity) 0 100
      (gate (optFloat d.pressure) 800 1200
        (match effWind d.wind_speed with
         | some v => gate (pyFloat v) 0 200 (cloudCheck d)
         | none => cloudCheck d)))

/-- WeatherDataValidator.validate_weather_data: the nine required-field
presence checks followed by the range checks of the try block, with the
except branch returning False. -/
def validate_weather_data (d : Rec) : Bool :=
  notNullPresent d.city && notNullPresent d.country && notNullPresent d.timestamp &&
  notNullPresent d.temperature && notNullPresent d.temperature_celsius &&
  notNullPresent d.humidity && notNullPresent d.pressure &&
  notNullPresent d.description && notNullPresent d.weather_main &&
  (rangeChecks d).getD false

/-- The validity predicate in the words of the specification: every
mandatory field present and non-null, in-range Celsius temperature,
humidity and pressure, a present wind_speed parses into [0, 200], and the
cloudiness value (defaulting to 0) parses into [0, 100]. -/
def validSpec (d : Rec) : Prop :=
  (∃ v, d.city = some v ∧ v ≠ vNone) ∧
  (∃ v, d.country = some v ∧ v ≠ vNone) ∧
  (∃ v, d.timestamp = some v ∧ v ≠ vNone) ∧
  (∃ v, d.temperature = some v ∧ v ≠ vNone) ∧
  (∃ v, d.temperature_celsius = some v ∧ v ≠ vNone) ∧
  (∃ v, d.humidity = some v ∧ v ≠ vNone) ∧
  (∃ v, d.pressure = some v ∧ v ≠ vNone) ∧
  (∃ v, d.description = some v ∧ v ≠ vNone) ∧
  (∃ v, d.weather_main = some v ∧ v ≠ vNone) ∧
  (∃ t, optFloat d.temperature_celsius = some t ∧ -100 ≤ t ∧ t ≤ 60) ∧
  (∃ h, optFloat d.humidity = some h ∧ 0 ≤ h ∧ h ≤ 100) ∧
  (∃ p, optFloat d.pressure = some p ∧ 800 ≤ p ∧ p ≤ 1200) ∧
  (∀ v, d.wind_speed = some v → v ≠ vNone →
    ∃ w, pyFloat v = some w ∧ 0 ≤ w ∧ w ≤ 200) ∧
  (∃ c, pyFloat (d.cloudiness.getD (vInt 0)) = some c ∧ 0 ≤ c ∧ c ≤ 100)

/-! ## Cleaner: WeatherDataValidator.clean_weather_data -/

/-- The timestamp conversion of clean_weather_data: a numeric (int or float)
timestamp is converted by datetime.fromtimestamp with the UTC timezone,
which raises for epoch values outside the representable range; any other
value (absent, None, string, datetime) is left untouched. -/
def cleanTS : Option Val → Except String (Option Val)
  | some (vInt n) =>
    if fromtsOK (n : ℚ) then .ok (some (vDT (n : ℚ)))
    else .error "timestamp out of range for datetime"
  | some (vFloat q) =>
    if fromtsOK q then .ok (some (vDT q))
    else .error "timestamp out of range for datetime"
  | o => .ok o

/-- The numeric-field normalization of clean_weather_data: a present
non-None value is replaced by float() of it, or by None when the conversion
raises; absent and present-None values are untouched. -/
def cleanNumF : Option Val → Option Val
  | none => none
  | some vNone => some vNone
  | some v => some (match pyFloat v with | some q => vFloat q | none => vNone)

/-- The string-field normalization of clean_weather_data: a present value
(None included) is replaced by str() of it stripped of surrounding
whitespace; an absent key is untouched. -/
def cleanStrF : Option Val → Option Val
  | none => none
  | some v => some (vStr (pystrip (pyStr v)))

/-- WeatherDataValidator.clean_weather_data: timestamp conversion, numeric
coercion of the nine numeric fields, trimming of the four string fields.
The error case is the exception raised by datetime.fromtimestamp. -/
def clean_weather_data (d : Rec) : Except String Rec := do
  let ts ← cleanTS d.timestamp
  .ok { city := cleanStrF d.city
        country := cleanStrF d.country
        timestamp := ts
        temperature := cleanNumF d.temperature
        temperature_celsius := cleanNumF d.temperature_celsius
        feels_like := cleanNumF d.feels_like
        humidity := cleanNumF d.humidity
        pressure := cleanNumF d.pressure
        visibility := cleanNumF d.visibility
        wind_speed := cleanNumF d.wind_speed
        wind_direction := cleanNumF d.wind_direction
        cloudiness := cleanNumF d.cloudiness
        description := cleanStrF d.description
        weather_main := cleanStrF d.weather_main }

/-- WeatherDataValidator.filter_valid_records: keep clean(r) for every
record r that validates, drop the others; an exception from clean
propagates out of the whole call. -/
def filter_valid_records : List Rec → Except String (List Rec)
  | [] => .ok []
  | r :: rs =>
    if validate_weather_data r then
      match clean_weather_data r with
      | .error e => .error e
      | .ok c =>
        match filter_valid_records rs with
        | .error e => .error e
        | .ok cs => .ok (c :: cs)
    else filter_valid_records rs

/-! ## Storage rows and WeatherDataStorage.store_weather_data -/

/-- A persisted WeatherData row, with the column types of the schema
(timestamps as epoch seconds, numeric columns as rationals). -/
structure Row where
  city : String
  country : String
  timestamp : ℚ
  temperature : ℚ
  temperature_celsius : ℚ
  feels_like : Option ℚ
  humidity : ℚ
  pressure : ℚ
  visibility : Option ℚ
  wind_speed : Option ℚ
  wind_direction : Option ℚ
  cloudiness : Option ℚ
  description : String
  weather_main : String
deriving DecidableEq, Repr

/-- The in-place timestamp rewrite at the top of the store loop: a numeric
timestamp becomes a UTC datetime (raising outside the datetime range), a
datetime is kept, anything else (absent key included) becomes the current
time. -/
def normalizeTS (o : Option Val) (now : ℚ) : Except String (Option Val) :=
  match o with
  | some (vInt n) =>
    if fromtsOK (n : ℚ) then .ok (some (vDT (n : ℚ)))
    else .error "timestamp out of range for datetime"
  | some (vFloat q) =>
    if fromtsOK q then .ok (some (vDT q))
    else .error "timestamp out of range for datetime"
  | some (vDT t) => .ok (some (vDT t))
  | _ => .ok (some (vDT now))

/-- The mutation store_weather_data applies to a caller record before
constructing the row: only the timestamp key is rewritten. -/
def mutRec (r : Rec) (now : ℚ) : Except String Rec :=
  (normalizeTS r.timestamp now).map (fun ts => { r with timestamp := ts })

/-- A string column value; an absent key is the KeyError of a direct
dictionary index, and a non-string value in a string column is modelled as
a construction error (the relational engine is an external collaborator). -/
def getStr (o : Option Val) (k : String) : Except String String :=
  match o with
  | some (vStr s) => .ok s
  | some _ => .error ("type error: " ++ k)
  | none => .error ("KeyError: " ++ k)

/-- A mandatory numeric column value; an absent key is a KeyError and a
non-numeric value is modelled as a construction error. -/
def getNum (o : Option Val) (k : String) : Except String ℚ :=
  match o with
  | some (vInt n) => .ok (n : ℚ)
  | some (vFloat q) => .ok q
  | some _ => .error ("type error: " ++ k)
  | none => .error ("KeyError: " ++ k)

/-- An optional numeric column read with dict.get: absent or None becomes
NULL. -/
def getOptNum (o : Option Val) (k : String) : Except String (Option ℚ) :=
  match o with
  | none => .ok none
  | some vNone => .ok none
  | some (vInt n) => .ok (some (n : ℚ))
  | some (vFloat q) => .ok (some q)
  | some _ => .error ("type error: " ++ k)

/-- The timestamp column value; by the time the row is constructed the
store loop has rewritten the field to a datetime. -/
def getDT (o : Option Val) : Except String ℚ :=
  match o with
  | some (vDT t) => .ok t
  | _ => .error "type error: timestamp"

/-- The cloudiness column read with dict.get(cloudiness, 0). -/
def getCloud (o : Option Val) : Except String (Option ℚ) :=
  match o with
  | none => .ok (some 0)
  | some vNone => .ok none
  | some (vInt n) => .ok (some (n : ℚ))
  | some (vFloat q) => .ok (some q)
  | some _ => .error "type error: cloudiness"

/-- Construction of the WeatherData row from a (timestamp-rewritten)
record, reading the fields in source order. -/
def buildRow (r : Rec) : Except String Row := do
  let c ← getStr r.city "city"
  let co ← getStr r.country "country"
  let ts ← getDT r.timestamp
  let te ← getNum r.temperature "temperature"
  let tc ← getNum r.temperature_celsius "temperature_celsius"
  let fl ← getOptNum r.feels_like "feels_like"
  let h ← getNum r.humidity "humidity"
  let pr ← getNum r.pressure "pressure"
  let vis ← getOptNum r.visibility "visibility"
  let ws ← getOptNum r.wind_speed "wind_speed"
  let wd ← getOptNum r.wind_direction "wind_direction"
  let cl ← getCloud r.cloudiness
  let de ← getStr r.description "description"
  let wm ← getStr r.weather_main "weather_main"
  .ok ⟨c, co, ts, te, tc, fl, h, pr, vis, ws, wd, cl, de, wm⟩

/-- Timestamp rewrite followed by row construction for one record. -/
def processRec (r : Rec) (now : ℚ) : Except String Row := do
  let r2 ← mutRec r now
  buildRow r2

/-- The body of the store loop: walk the caller list, mutating each record
in place and accumulating the session-pending rows; the first exception
stops the loop, leaving the earlier records mutated and the later ones
untouched. Returns the caller-visible list and the pending rows or the
exception. -/
def storeLoop (now : ℚ) : List Rec → List Rec × Except String (List Row)
  | [] => ([], .ok [])
  | r :: rs =>
    match mutRec r now with
    | .error e => (r :: rs, .error e)
    | .ok r2 =>
      match buildRow r2 with
      | .error e => (r2 :: rs, .error e)
      | .ok row =>
        let p := storeLoop now rs
        (r2 :: p.1,
         match p.2 with
         | .error e => .error e
         | .ok rows => .ok (row :: rows))

/-- WeatherDataStorage.store_weather_data over a database modelled as the
committed row list: an empty batch returns 0 with no transaction; otherwise
the loop builds the pending rows, a commit appends them all, and any
exception rolls the session back (the database is unchanged) and is
re-raised. Returns the caller-visible list, the count or exception, and the
database afterwards. -/
def store_weather_data (db : List Row) (recs : List Rec) (now : ℚ) :
    List Rec × Except String ℕ × List Row :=
  if recs.isEmpty then (recs, .ok 0, db)
  else
    match storeLoop now recs with
    | (recs2, .error e) => (recs2, .error e, db)
    | (recs2, .ok rows) => (recs2, .ok rows.length, db ++ rows)

/-! ## Storage queries -/

/-- Case-insensitive list prefix test on characters. -/
def hasPrefixL : List Char → List Char → Bool
  | [], _ => true
  | _ :: _, [] => false
  | a :: as, b :: bs => a = b && hasPrefixL as bs

/-- Whether the pattern occurs as a contiguous segment of the list. -/
def hasSegL (pat : List Char) : List Char → Bool
  | [] => pat.isEmpty
  | l@(_ :: rest) => hasPrefixL pat l || hasSegL pat rest

/-- The SQL `column ILIKE '%pat%'` test used by the queries: the pattern
occurs in the column value, case-insensitively (wildcard characters inside
the caller-supplied pattern are outside the model). -/
def ilikeMatch (s pat : String) : Bool :=
  hasSegL (pat.data.map Char.toLower) (s.data.map Char.toLower)

/-- The row order of the latest-per-city query: ORDER BY city ASC,
timestamp DESC. -/
def latestOrder (a b : Row) : Prop :=
  a.city < b.city ∨ (a.city = b.city ∧ b.timestamp ≤ a.timestamp)

instance : DecidableRel latestOrder := fun a b => by
  unfold latestOrder; infer_instance

instance : IsTotal Row latestOrder where
  total a b := by
    rcases lt_trichotomy a.city b.city with h | h | h
    · exact Or.inl (Or.inl h)
    · rcases le_total b.timestamp a.timestamp with ht | ht
      · exact Or.inl (Or.inr ⟨h, ht⟩)
      · exact Or.inr (Or.inr ⟨h.symm, ht⟩)
    · exact Or.inr (Or.inl h)

instance : IsTrans Row latestOrder where
  trans a b c hab hbc := by
    rcases hab with h1 | ⟨h1, ht1⟩
    · rcases hbc with h2 | ⟨h2, _⟩
      · exact Or.inl (h1.trans h2)
      · exact Or.inl (h2 ▸ h1)
    · rcases hbc with h2 | ⟨h2, ht2⟩
      · exact Or.inl (h1 ▸ h2)
      · exact Or.inr ⟨h1.trans h2, ht2.trans ht1⟩

/-- First-seen-city deduplication over the scanned row order, with the set
of already-seen city names. -/
def dedupeByCity : List Row → List String → List Row
  | [], _ => []
  | r :: rs, seen =>
    if r.city ∈ seen then dedupeByCity rs seen
    else r :: dedupeByCity rs (r.city :: seen)

/-- WeatherDataStorage.get_latest_weather: optional substring filter (the
`if city:` guard skips it for None and for the empty string), order by city
then timestamp descending, then keep the first row of each city. -/
def get_latest_weather (db : List Row) (city : Option String) : List Row :=
  let base :=
    match city with
    | none => db
    | some c => if c = "" then db else db.filter (fun r => ilikeMatch r.city c)
  dedupeByCity (List.insertionSort latestOrder base) []

/-- The row order of the history query: ORDER BY timestamp DESC. -/
def histOrder (a b : Row) : Prop := b.timestamp ≤ a.timestamp

instance : DecidableRel histOrder := fun a b => by
  unfold histOrder; infer_instance

instance : IsTotal Row histOrder where
  total a b := le_total b.timestamp a.timestamp

instance : IsTrans Row histOrder where
  trans _ _ _ hab hbc := hbc.trans hab

/-- WeatherDataStorage.get_weather_history: rows matching the city
substring with timestamp at least now minus the day window, ordered by
timestamp descending, with no cap on the result size. -/
def get_weather_history (db : List Row) (city : String) (days : ℤ) (now : ℚ) :
    List Row :=
  List.insertionSort histOrder
    (db.filter (fun r =>
      ilikeMatch r.city city && decide (now - 86400 * (days : ℚ) ≤ r.timestamp)))

/-! ## Pipeline orchestrator: WeatherDataPipeline.run_single_collection -/

/-- The environment of one collection cycle: the connectivity probe result,
the records the fetcher returns, whether the warehouse append raises (and
with what message), the committed database, the clock, and the requested
city list. -/
structure PipeEnv where
  connOK : Bool
  fetched : List Rec
  uploadErr : Option String
  db : List Row
  now : ℚ
  cities : List String
deriving Repr

/-- The result dictionary of run_single_collection; `none` in a count field
means the key is absent from the returned dictionary. -/
structure RunResult where
  status : String
  error : Option String
  collection_time : ℚ
  cities_requested : Option ℕ
  records_validated : Option ℕ
  records_stored : Option ℕ
  records_uploaded : Option ℕ
deriving DecidableEq, Repr

/-- The observable effects of one cycle: which steps ran, the argument
lists passed to store and to the warehouse sink, and the database after the
cycle. -/
structure RunTrace where
  fetchAttempted : Bool
  validateAttempted : Bool
  storeArg : Option (List Rec)
  uploadArg : Option (List Rec)
  dbAfter : List Row
deriving DecidableEq, Repr

/-- WeatherDataPipeline.run_single_collection: preflight probe, fetch,
validate/clean, local store, warehouse append, summary — with every
exception inside the cycle caught by the single outer handler, which
returns status error with the message. -/
def run_single_collection (env : PipeEnv) : RunResult × RunTrace :=
  if env.connOK = false then
    (⟨"error", some "Failed to connect to the weather API", env.now,
      none, none, none, none⟩,
     ⟨false, false, none, none, env.db⟩)
  else if env.fetched.isEmpty then
    (⟨"failed", none, env.now, none, none, none, none⟩,
     ⟨true, false, none, none, env.db⟩)
  else
    match filter_valid_records env.fetched with
    | .error e =>
      (⟨"error", some e, env.now, none, none, none, none⟩,
       ⟨true, true, none, none, env.db⟩)
    | .ok valid =>
      if valid.isEmpty then
        (⟨"failed", none, env.now, none, none, none, none⟩,
         ⟨true, true, none, none, env.db⟩)
      else
        match store_weather_data env.db valid env.now with
        | (_, .error e, dbr) =>
          (⟨"error", some e, env.now, none, none, none, none⟩,
           ⟨true, true, some valid, none, dbr⟩)
        | (mutated, .ok n, dbr) =>
          match env.uploadErr with
          | some e =>
            (⟨"error", some e, env.now, none, none, none, none⟩,
             ⟨true, true, some valid, some mutated, dbr⟩)
          | none =>
            (⟨"success", none, env.now, some env.cities.length,
              some valid.length, some n, some mutated.length⟩,
             ⟨true, true, some valid, some mutated, dbr⟩)

/-! ## Claim-side description of the store-time timestamp rewrite -/

/-- The timestamp rewrite as the specification words it: a Unix-numeric
timestamp becomes a UTC datetime, a datetime is kept, and a value that is
neither numeric nor a datetime (an absent key included) becomes the current
time. -/
def tsRewriteSpec (o : Option Val) (now : ℚ) : Option Val :=
  match o with
  | some (vInt n) => some (vDT (n : ℚ))
  | some (vFloat q) => some (vDT q)
  | some (vDT t) => some (vDT t)
  | _ => some (vDT now)

/-! ## Concrete fixtures -/

/-- A raw record as the fetcher returns it, with every mandatory field
present and in range. -/
def recParis1 : Rec :=
  ⟨some (vStr "Paris"), some (vStr "FR"), some (vInt 1000), some (vFloat 280),
   some (vFloat 7), none, some (vInt 50), some (vInt 1000), none, none, none,
   some (vInt 10), some (vStr "clear sky"), some (vStr "Clear")⟩

/-- The cleaned form of recParis1. -/
def cleanParis1 : Rec :=
  ⟨some (vStr "Paris"), some (vStr "FR"), some (vDT 1000), some (vFloat 280),
   some (vFloat 7), none, some (vFloat 50), some (vFloat 1000), none, none, none,
   some (vFloat 10), some (vStr "clear sky"), some (vStr "Clear")⟩

/-- A later cleaned Paris record. -/
def cleanParis2 : Rec :=
  ⟨some (vStr "Paris"), some (vStr "FR"), some (vDT 2000), some (vFloat 281),
   some (vFloat 8), none, some (vFloat 55), some (vFloat 1001), none, none, none,
   some (vFloat 20), some (vStr "scattered clouds"), some (vStr "Clouds")⟩

/-- A cleaned London record. -/
def cleanLondon : Rec :=
  ⟨some (vStr "London"), some (vStr "GB"), some (vDT 1500), some (vFloat 283),
   some (vFloat 10), none, some (vFloat 60), some (vFloat 990), none, none, none,
   some (vFloat 0), some (vStr "light rain"), some (vStr "Rain")⟩

/-- A batch with two Paris records and one London record. -/
def recsLatest : List Rec := [cleanParis1, cleanParis2, cleanLondon]

/-- A record that passes validation (the timestamp is present and not range
checked) but whose huge numeric timestamp is outside the datetime range, so
clean raises. -/
def recHugeTS : Rec :=
  ⟨some (vStr "Paris"), some (vStr "FR"), some (vInt (10 ^ 20)), some (vFloat 280),
   some (vFloat 7), none, some (vInt 50), some (vInt 1000), none, none, none,
   some (vInt 10), some (vStr "clear sky"), some (vStr "Clear")⟩

/-- A record whose city key is absent, making row construction fail. -/
def recNoCity : Rec :=
  ⟨none, some (vStr "FR"), some (vDT 1000), some (vFloat 280),
   some (vFloat 7), none, some (vFloat 50), some (vFloat 1000), none, none, none,
   some (vFloat 10), some (vStr "clear sky"), some (vStr "Clear")⟩

/-- A cycle in which the probe succeeds, one good record is fetched, local
storage succeeds, and the warehouse append raises. -/
def envSinkFail : PipeEnv :=
  ⟨true, [recParis1], some "bigquery unavailable", [], 0, ["Paris"]⟩

/-- A cycle in which the probe succeeds and the fetcher returns nothing. -/
def envNoData : PipeEnv := ⟨true, [], none, [], 0, ["Paris"]⟩

/-- A cycle in which the preflight probe reports unreachable. -/
def envConnFail : PipeEnv := ⟨false, [recParis1], none, [], 0, ["Paris"]⟩

/-! ## Lemmas: stripping is idempotent -/

theorem dropWhile_dropWhile {α : Type} (p : α → Bool) (l : List α) :
    (l.dropWhile p).dropWhile p = l.dropWhile p := by
  induction l with
  | nil => rfl
  | cons a l ih => by_cases h : p a <;> simp [List.dropWhile_cons, h, ih]

theorem exists_append_dropWhile {α : Type} (p : α → Bool) (l : List α) :
    ∃ s, l = s ++ l.dropWhile p := by
  induction l with
  | nil => exact ⟨[], rfl⟩
  | cons a l ih =>
    by_cases h : p a
    · obtain ⟨s, hs⟩ := ih
      refine ⟨a :: s, ?_⟩
      simp only [List.dropWhile_cons, h, if_true, List.cons_append]
      exact congrArg (a :: ·) hs
    · exact ⟨[], by simp [List.dropWhile_cons, h]⟩

theorem dropWhile_length_le {α : Type} (p : α → Bool) (l : List α) :
    (l.dropWhile p).length ≤ l.length := by
  induction l with
  | nil => exact le_refl 0
  | cons a l ih =>
    by_cases h : p a
    · simp only [List.dropWhile_cons, h, if_true]
      exact ih.trans (Nat.le_succ _)
    · simp [List.dropWhile_cons, h]

theorem dropWhile_eq_self_of_append {α : Type} (p : α → Bool) (pre t : List α)
    (h : (pre ++ t).dropWhile p = pre ++ t) : pre.dropWhile p = pre := by
  cases pre with
  | nil => rfl
  | cons a pre2 =>
    have ha : p a = false := by
      by_contra hc
      have hpa : p a = true := by simpa using hc
      have hlen := congrArg List.length h
      rw [List.cons_append, List.dropWhile_cons, if_pos hpa] at hlen
      have hle := dropWhile_length_le p (pre2 ++ t)
      simp only [List.length_cons, List.length_append] at hlen hle
      omega
    simp [List.dropWhile_cons, ha]

theorem stripList_idem (l : List Char) : stripList (stripList l) = stripList l := by
  unfold stripList
  set p := isPySpace with hp
  set m := l.dropWhile p with hm
  set u := m.reverse.dropWhile p with hu
  have hmfix : m.dropWhile p = m := by rw [hm]; exact dropWhile_dropWhile p l
  have hufix : u.dropWhile p = u := by rw [hu]; exact dropWhile_dropWhile p m.reverse
  have hrevfix : (u.reverse).dropWhile p = u.reverse := by
    obtain ⟨s, hs⟩ := exists_append_dropWhile p m.reverse
    have hm2 : m = u.reverse ++ s.reverse := by
      have := congrArg List.reverse hs
      rw [List.reverse_reverse, List.reverse_append] at this
      exact this
    refine dropWhile_eq_self_of_append p u.reverse s.reverse ?_
    rw [← hm2]; exact hmfix
  rw [hrevfix, List.reverse_reverse, hufix]

theorem pystrip_idem (s : String) : pystrip (pystrip s) = pystrip s :=
  congrArg String.mk (stripList_idem s.data)

/-! ## Lemmas: the cleaner is idempotent per field -/

theorem cleanStrF_idem (o : Option Val) : cleanStrF (cleanStrF o) = cleanStrF o := by
  cases o with
  | none => rfl
  | some v => simp [cleanStrF, pyStr, pystrip_idem]

theorem cleanNumF_idem (o : Option Val) : cleanNumF (cleanNumF o) = cleanNumF o := by
  cases o with
  | none => rfl
  | some v =>
    cases v with
    | vNone => rfl
    | vInt n => simp [cleanNumF, pyFloat]
    | vFloat q => simp [cleanNumF, pyFloat]
    | vDT t => simp [cleanNumF, pyFloat]
    | vStr s =>
      simp only [cleanNumF, pyFloat]
      cases parseFloatStr s <;> simp

theorem cleanTS_idem {o o2 : Option Val} (h : cleanTS o = .ok o2) :
    cleanTS o2 = .ok o2 := by
  cases o with
  | none => cases h; rfl
  | some v =>
    cases v with
    | vInt n =>
      by_cases hts : fromtsOK (n : ℚ)
      · rw [cleanTS, if_pos hts] at h; cases h; rfl
      · rw [cleanTS, if_neg hts] at h; cases h
    | vFloat q =>
      by_cases hts : fromtsOK q
      · rw [cleanTS, if_pos hts] at h; cases h; rfl
      · rw [cleanTS, if_neg hts] at h; cases h
    | vStr s => cases h; rfl
    | vDT t => cases h; rfl
    | vNone => cases h; rfl

theorem clean_ok_of_ok {d y : Rec} (h : clean_weather_data d = .ok y) :
    clean_weather_data y = .ok y := by
  unfold clean_weather_data at h ⊢
  cases hts : cleanTS d.timestamp with
  | error e => rw [hts] at h; cases h
  | ok ts =>
    rw [hts] at h
    simp only [bind, Except.bind] at h
    cases h
    simp only [bind, Except.bind]
    rw [cleanTS_idem hts]
    simp [cleanNumF_idem, cleanStrF_idem]

/-- C6 — clean is idempotent: composing clean_weather_data with itself (in
the Except monad) is clean_weather_data. Whenever clean returns a cleaned
record, cleaning that record again returns it unchanged on every
numeric-normalization field (timestamp conversion, float coercion or
null-on-parse-failure) and every string-normalization field (trimming); a
raising clean propagates the same exception. -/
theorem clean_idempotent (d : Rec) :
    (clean_weather_data d).bind clean_weather_data = clean_weather_data d := by
  cases h : clean_weather_data d with
  | error e => rfl
  | ok y =>
    simp only [Except.bind]
    exact clean_ok_of_ok h

/-! ## Lemmas: the validator -/

theorem notNullPresent_eq (o : Option Val) :
    notNullPresent o = true ↔ ∃ v, o = some v ∧ v ≠ vNone := by
  cases o with
  | none => simp [notNullPresent]
  | some v => cases v <;> simp [notNullPresent]

theorem gate_eq_some_true (o : Option ℚ) (lo hi : ℚ) (k : Option Bool) :
    gate o lo hi k = some true ↔
      ∃ t, o = some t ∧ lo ≤ t ∧ t ≤ hi ∧ k = some true := by
  cases o with
  | none => simp [gate]
  | some t =>
    simp only [gate]
    by_cases h : t < lo ∨ hi < t
    · rw [if_pos h]
      constructor
      · intro habs; exact absurd (Option.some.inj habs) (by simp)
      · rintro ⟨t2, ht, h1, h2, _⟩
        cases Option.some.inj ht
        rcases h with h | h <;> linarith
    · rw [if_neg h]
      push_neg at h
      constructor
      · intro hk; exact ⟨t, rfl, h.1, h.2, hk⟩
      · rintro ⟨t2, ht, _, _, hk⟩; exact hk

theorem getD_false_eq_true (o : Option Bool) : o.getD false = true ↔ o = some true := by
  cases o <;> simp

theorem effWind_eq_none (o : Option Val) :
    effWind o = none ↔ (o = none ∨ o = some vNone) := by
  cases o with
  | none => simp [effWind]
  | some v =>
    simp only [effWind]
    by_cases h : v = vNone <;> simp [h]

theorem effWind_eq_some (o : Option Val) (v : Val) :
    effWind o = some v ↔ (o = some v ∧ v ≠ vNone) := by
  cases o with
  | none => simp [effWind]
  | some w =>
    simp only [effWind]
    by_cases h : w = vNone
    · simp only [if_pos h]
      constructor
      · intro hc; cases hc
      · rintro ⟨hw, hv⟩; cases Option.some.inj hw; exact absurd h hv
    · simp only [if_neg h]
      constructor
      · intro hw; cases Option.some.inj hw; exact ⟨rfl, h⟩
      · rintro ⟨hw, _⟩; rw [Option.some.inj hw]

theorem windMatch_eq_some_true (d : Rec) :
    (match effWind d.wind_speed with
     | some v => gate (pyFloat v) 0 200 (cloudCheck d)
     | none => cloudCheck d) = some true ↔
    ((∀ v, d.wind_speed = some v → v ≠ vNone →
        ∃ w, pyFloat v = some w ∧ 0 ≤ w ∧ w ≤ 200) ∧
     cloudCheck d = some true) := by
  cases hw : effWind d.wind_speed with
  | none =>
    rw [effWind_eq_none] at hw
    constructor
    · intro hc
      refine ⟨?_, hc⟩
      intro v hv hne
      rcases hw with hw | hw <;> rw [hv] at hw
      · cases hw
      · exact absurd (Option.some.inj hw) hne
    · exact fun hc => hc.2
  | some v =>
    rw [effWind_eq_some] at hw
    rw [gate_eq_some_true]
    constructor
    · rintro ⟨w, hpw, h1, h2, hcl⟩
      refine ⟨?_, hcl⟩
      intro v2 hv2 _
      rw [hw.1] at hv2
      cases Option.some.inj hv2
      exact ⟨w, hpw, h1, h2⟩
    · rintro ⟨hall, hcl⟩
      obtain ⟨w, hpw, h1, h2⟩ := hall v hw.1 hw.2
      exact ⟨w, hpw, h1, h2, hcl⟩

theorem cloudCheck_eq_some_true (d : Rec) :
    cloudCheck d = some true ↔
      ∃ c, pyFloat (d.cloudiness.getD (vInt 0)) = some c ∧ 0 ≤ c ∧ c ≤ 100 := by
  rw [cloudCheck, gate_eq_some_true]
  constructor
  · rintro ⟨c, h1, h2, h3, _⟩; exact ⟨c, h1, h2, h3⟩
  · rintro ⟨c, h1, h2, h3⟩; exact ⟨c, h1, h2, h3, rfl⟩

theorem rangeChecks_eq_some_true (d : Rec) :
    rangeChecks d = some true ↔
      ((∃ t, optFloat d.temperature_celsius = some t ∧ -100 ≤ t ∧ t ≤ 60) ∧
       (∃ h, optFloat d.humidity = some h ∧ 0 ≤ h ∧ h ≤ 100) ∧
       (∃ p, optFloat d.pressure = some p ∧ 800 ≤ p ∧ p ≤ 1200) ∧
       (∀ v, d.wind_speed = some v → v ≠ vNone →
          ∃ w, pyFloat v = some w ∧ 0 ≤ w ∧ w ≤ 200) ∧
       (∃ c, pyFloat (d.cloudiness.getD (vInt 0)) = some c ∧ 0 ≤ c ∧ c ≤ 100)) := by
  rw [rangeChecks, gate_eq_some_true]
  constructor
  · rintro ⟨t, ht, ht1, ht2, hrest⟩
    rw [gate_eq_some_true] at hrest
    obtain ⟨h, hh, hh1, hh2, hrest⟩ := hrest
    rw [gate_eq_some_true] at hrest
    obtain ⟨p, hp, hp1, hp2, hrest⟩ := hrest
    rw [windMatch_eq_some_true, cloudCheck_eq_some_true] at hrest
    exact ⟨⟨t, ht, ht1, ht2⟩, ⟨h, hh, hh1, hh2⟩, ⟨p, hp, hp1, hp2⟩,
      hrest.1, hrest.2⟩
  · rintro ⟨⟨t, ht, ht1, ht2⟩, ⟨h, hh, hh1, hh2⟩, ⟨p, hp, hp1, hp2⟩, hwind, hcl⟩
    refine ⟨t, ht, ht1, ht2, ?_⟩
    rw [gate_eq_some_true]
    refine ⟨h, hh, hh1, hh2, ?_⟩
    rw [gate_eq_some_true]
    refine ⟨p, hp, hp1, hp2, ?_⟩
    rw [windMatch_eq_some_true, cloudCheck_eq_some_true]
    exact ⟨hwind, hcl⟩

/-- C4 — validate returns true exactly when every mandatory field
(location, country, timestamp, absolute temperature, Celsius temperature,
humidity, pressure, description, condition category) is present and
non-null, temperature_celsius parses into [-100, 60], humidity into
[0, 100], pressure into [800, 1200], a present wind_speed parses into
[0, 200], and the cloudiness value (0 when absent) parses into [0, 100];
it returns false in every other case, missing fields and parse failures
included. -/
theorem validate_characterization (d : Rec) :
    validate_weather_data d = true ↔ validSpec d := by
  unfold validate_weather_data validSpec
  simp only [Bool.and_eq_true, notNullPresent_eq, getD_false_eq_true]
  rw [rangeChecks_eq_some_true]
  tauto

/-! ## Lemmas: the batch filter -/

/-- C5 (counterexample) — a single dict-shaped record can make filter_valid
raise: recHugeTS passes validation (its timestamp is present and the
validator never range checks it), yet clean calls datetime.fromtimestamp on
the huge numeric timestamp, which raises, and the exception propagates out
of filter_valid_records; so a per-record problem does cause filter_valid to
raise, against the claim. -/
theorem filter_valid_raises_ce :
    validate_weather_data recHugeTS = true ∧
    (filter_valid_records [recHugeTS]).isOk = false := by decide

/-- C5 (amended) — whenever filter_valid returns a list, that list is no
longer than the input and contains only cleaned records whose underlying
raw record satisfies validate (invalid records are dropped individually);
and the only way filter_valid raises is an exception from clean on a record
that passed validation (a numeric timestamp outside the datetime range) —
such an exception propagates instead of being swallowed. -/
theorem filter_valid_ok_properties (L : List Rec) :
    (∀ out, filter_valid_records L = .ok out →
      out.length ≤ L.length ∧
      ∀ c ∈ out, ∃ r ∈ L, validate_weather_data r = true ∧
        clean_weather_data r = .ok c) ∧
    ((filter_valid_records L).isOk = false →
      ∃ r ∈ L, validate_weather_data r = true ∧
        (clean_weather_data r).isOk = false) := by
  induction L with
  | nil =>
    constructor
    · intro out h
      cases h
      exact ⟨Nat.le_refl 0, by simp⟩
    · intro h; cases h
  | cons r rs ih =>
    constructor
    · intro out h
      rw [filter_valid_records] at h
      by_cases hv : validate_weather_data r
      · rw [if_pos hv] at h
        cases hc : clean_weather_data r with
        | error e => rw [hc] at h; cases h
        | ok c =>
          rw [hc] at h
          cases hf : filter_valid_records rs with
          | error e => rw [hf] at h; cases h
          | ok cs =>
            rw [hf] at h
            cases h
            obtain ⟨hlen, hmem⟩ := ih.1 cs hf
            refine ⟨by simpa using Nat.succ_le_succ hlen, ?_⟩
            intro c2 hc2
            rcases List.mem_cons.mp hc2 with hc2 | hc2
            · exact ⟨r, List.mem_cons_self r rs, hv, hc2 ▸ hc⟩
            · obtain ⟨r2, hr2, hv2, hcl2⟩ := hmem c2 hc2
              exact ⟨r2, List.mem_cons_of_mem r hr2, hv2, hcl2⟩
      · rw [if_neg hv] at h
        obtain ⟨hlen, hmem⟩ := ih.1 out h
        refine ⟨hlen.trans (Nat.le_succ _), ?_⟩
        intro c hc
        obtain ⟨r2, hr2, hv2, hcl2⟩ := hmem c hc
        exact ⟨r2, List.mem_cons_of_mem r hr2, hv2, hcl2⟩
    · intro h
      rw [filter_valid_records] at h
      by_cases hv : validate_weather_data r
      · rw [if_pos hv] at h
        cases hc : clean_weather_data r with
        | error e =>
          exact ⟨r, List.mem_cons_self r rs, hv, by rw [hc]; rfl⟩
        | ok c =>
          rw [hc] at h
          cases hf : filter_valid_records rs with
          | error e =>
            obtain ⟨r2, hr2, hv2, hcl2⟩ := ih.2 (by rw [hf]; rfl)
            exact ⟨r2, List.mem_cons_of_mem r hr2, hv2, hcl2⟩
          | ok cs => rw [hf] at h; cases h
      · rw [if_neg hv] at h
        obtain ⟨r2, hr2, hv2, hcl2⟩ := ih.2 h
        exact ⟨r2, List.mem_cons_of_mem r hr2, hv2, hcl2⟩

/-- C5 (witness) — the amended theorem applied to a concrete batch of one
good record, which comes out cleaned. -/
theorem filter_valid_ok_properties_witness :
    filter_valid_records [recParis1] = .ok [cleanParis1] ∧
    ([cleanParis1].length ≤ [recParis1].length ∧
     ∀ c ∈ [cleanParis1], ∃ r ∈ [recParis1], validate_weather_data r = true ∧
       clean_weather_data r = .ok c) :=
  ⟨by decide, (filter_valid_ok_properties [recParis1]).1 [cleanParis1] (by decide)⟩

/-! ## Lemmas: the store loop -/

theorem storeLoop_cons_muterr {now : ℚ} {r : Rec} {rs : List Rec} {e : String}
    (hm : mutRec r now = .error e) :
    storeLoop now (r :: rs) = (r :: rs, .error e) := by
  simp only [storeLoop, hm]

theorem storeLoop_cons_builderr {now : ℚ} {r r2 : Rec} {rs : List Rec} {e : String}
    (hm : mutRec r now = .ok r2) (hb : buildRow r2 = .error e) :
    storeLoop now (r :: rs) = (r2 :: rs, .error e) := by
  simp only [storeLoop, hm, hb]

theorem storeLoop_cons_ok {now : ℚ} {r r2 : Rec} {rs : List Rec} {row : Row}
    (hm : mutRec r now = .ok r2) (hb : buildRow r2 = .ok row) :
    storeLoop now (r :: rs) =
      (r2 :: (storeLoop now rs).1,
       match (storeLoop now rs).2 with
       | .error e => .error e
       | .ok rows => .ok (row :: rows)) := by
  simp only [storeLoop, hm, hb]

theorem storeLoop_ok_length (now : ℚ) :
    ∀ (recs : List Rec) (rows : List Row),
      (storeLoop now recs).2 = .ok rows → rows.length = recs.length := by
  intro recs
  induction recs with
  | nil => intro rows h; cases h; rfl
  | cons r rs ih =>
    intro rows h
    cases hm : mutRec r now with
    | error e => rw [storeLoop_cons_muterr hm] at h; cases h
    | ok r2 =>
      cases hb : buildRow r2 with
      | error e => rw [storeLoop_cons_builderr hm hb] at h; cases h
      | ok row =>
        rw [storeLoop_cons_ok hm hb] at h
        cases hp : (storeLoop now rs).2 with
        | error e => simp only [hp] at h; cases h
        | ok rows2 =>
          simp only [hp] at h
          cases h
          simp [ih rows2 hp]

theorem storeLoop_error_source (now : ℚ) :
    ∀ (recs : List Rec) (e : String),
      (storeLoop now recs).2 = .error e →
      ∃ r ∈ recs, (processRec r now).isOk = false := by
  intro recs
  induction recs with
  | nil => intro e h; cases h
  | cons r rs ih =>
    intro e h
    cases hm : mutRec r now with
    | error e2 =>
      refine ⟨r, List.mem_cons_self r rs, ?_⟩
      have hpr : processRec r now = .error e2 := by
        simp [processRec, bind, Except.bind, hm]
      rw [hpr]; rfl
    | ok r2 =>
      cases hb : buildRow r2 with
      | error e2 =>
        refine ⟨r, List.mem_cons_self r rs, ?_⟩
        have hpr : processRec r now = .error e2 := by
          simp [processRec, bind, Except.bind, hm, hb]
        rw [hpr]; rfl
      | ok row =>
        rw [storeLoop_cons_ok hm hb] at h
        cases hp : (storeLoop now rs).2 with
        | error e2 =>
          obtain ⟨r3, hr3, hfail⟩ := ih e2 hp
          exact ⟨r3, List.mem_cons_of_mem r hr3, hfail⟩
        | ok rows2 => simp only [hp] at h; cases h

theorem mutRec_ok_shape {r r2 : Rec} {now : ℚ} (h : mutRec r now = .ok r2) :
    r2 = { r with timestamp := tsRewriteSpec r.timestamp now } := by
  cases hts : r.timestamp with
  | none =>
    simp only [mutRec, normalizeTS, hts, Except.map] at h
    cases h
    simp [tsRewriteSpec, hts]
  | some v =>
    cases v with
    | vInt n =>
      by_cases hok : fromtsOK (n : ℚ)
      · simp only [mutRec, normalizeTS, hts, if_pos hok, Except.map] at h
        cases h
        simp [tsRewriteSpec, hts]
      · simp only [mutRec, normalizeTS, hts, if_neg hok, Except.map] at h
        cases h
    | vFloat q =>
      by_cases hok : fromtsOK q
      · simp only [mutRec, normalizeTS, hts, if_pos hok, Except.map] at h
        cases h
        simp [tsRewriteSpec, hts]
      · simp only [mutRec, normalizeTS, hts, if_neg hok, Except.map] at h
        cases h
    | vStr s =>
      simp only [mutRec, normalizeTS, hts, Except.map] at h
      cases h
      simp [tsRewriteSpec, hts]
    | vDT t =>
      simp only [mutRec, normalizeTS, hts, Except.map] at h
      cases h
      simp [tsRewriteSpec, hts]
    | vNone =>
      simp only [mutRec, normalizeTS, hts, Except.map] at h
      cases h
      simp [tsRewriteSpec, hts]

theorem storeLoop_ok_mutated (now : ℚ) :
    ∀ (recs : List Rec) (rows : List Row),
      (storeLoop now recs).2 = .ok rows →
      List.Forall₂ (fun r r2 => mutRec r now = .ok r2) recs (storeLoop now recs).1 := by
  intro recs
  induction recs with
  | nil => intro rows _; exact List.Forall₂.nil
  | cons r rs ih =>
    intro rows h
    cases hm : mutRec r now with
    | error e => rw [storeLoop_cons_muterr hm] at h; cases h
    | ok r2 =>
      cases hb : buildRow r2 with
      | error e => rw [storeLoop_cons_builderr hm hb] at h; cases h
      | ok row =>
        rw [storeLoop_cons_ok hm hb] at h ⊢
        cases hp : (storeLoop now rs).2 with
        | error e => simp only [hp] at h; cases h
        | ok rows2 => exact List.Forall₂.cons hm (ih rows2 hp)

/-- C7 — store is transactional per batch: on any exception during the
record loop (a per-record construction error included) the session is
rolled back, the database is unchanged and the error is re-raised to the
caller; on success every record of the batch is committed and the returned
count is the batch size. -/
theorem store_transactional (db : List Row) (recs : List Rec) (now : ℚ) :
    (∀ e, (store_weather_data db recs now).2.1 = .error e →
      (store_weather_data db recs now).2.2 = db ∧
      ∃ r ∈ recs, (processRec r now).isOk = false) ∧
    (∀ n, (store_weather_data db recs now).2.1 = .ok n →
      n = recs.length ∧
      ∃ rows, rows.length = recs.length ∧
        (store_weather_data db recs now).2.2 = db ++ rows) := by
  unfold store_weather_data
  by_cases he : recs.isEmpty
  · rw [if_pos he]
    have hnil : recs = [] := List.isEmpty_iff.mp he
    constructor
    · intro e h; cases h
    · intro n h
      cases h
      exact ⟨by rw [hnil]; rfl, [], by rw [hnil]; rfl, by simp⟩
  · rw [if_neg he]
    cases hp : storeLoop now recs with
    | mk recs2 res =>
      cases res with
      | error e =>
        constructor
        · intro e2 h
          simp only at h
          cases h
          refine ⟨rfl, ?_⟩
          exact storeLoop_error_source now recs e (by rw [hp])
        · intro n h; cases h
      | ok rows =>
        constructor
        · intro e h; cases h
        · intro n h
          simp only at h
          cases h
          have hlen : rows.length = recs.length :=
            storeLoop_ok_length now recs rows (by rw [hp])
          exact ⟨hlen, rows, hlen, rfl⟩

/-- C7 (witness) — the theorem at concrete batches: a batch whose record
misses the city key is rolled back with the error re-raised, and a good
batch of one record is committed whole. -/
theorem store_transactional_witness :
    ((store_weather_data [] [recNoCity] 0).2.1 = .error "KeyError: city" ∧
     (store_weather_data [] [recNoCity] 0).2.2 = [] ∧
     ∃ r ∈ [recNoCity], (processRec r 0).isOk = false) ∧
    ((store_weather_data [] [cleanParis1] 0).2.1 = .ok 1 ∧
     1 = [cleanParis1].length ∧
     ∃ rows, rows.length = [cleanParis1].length ∧
       (store_weather_data [] [cleanParis1] 0).2.2 = [] ++ rows) :=
  ⟨⟨by decide,
    ((store_transactional [] [recNoCity] 0).1 "KeyError: city" (by decide)).1,
    ((store_transactional [] [recNoCity] 0).1 "KeyError: city" (by decide)).2⟩,
   ⟨by decide,
    ((store_transactional [] [cleanParis1] 0).2 1 (by decide)).1,
    ((store_transactional [] [cleanParis1] 0).2 1 (by decide)).2⟩⟩

/-! ## The mutation of the caller list, and the pipeline -/

/-- C10 — store mutates its input in place: on a successful store every
record of the caller list has its timestamp rewritten (a Unix-numeric
timestamp becomes the corresponding UTC datetime, a datetime is kept, and
any other value becomes the current time) with all other fields unchanged;
and the orchestrator hands exactly this mutated list to the warehouse
upload. -/
theorem store_mutation_observed :
    (∀ (db : List Row) (recs : List Rec) (now : ℚ) (n : ℕ),
      (store_weather_data db recs now).2.1 = .ok n →
      List.Forall₂
        (fun r r2 => r2 = { r with timestamp := tsRewriteSpec r.timestamp now })
        recs (store_weather_data db recs now).1) ∧
    (∀ (env : PipeEnv) (valid : List Rec) (n : ℕ),
      env.connOK = true → env.fetched ≠ [] →
      filter_valid_records env.fetched = .ok valid → valid ≠ [] →
      (store_weather_data env.db valid env.now).2.1 = .ok n →
      (run_single_collection env).2.uploadArg =
        some ((store_weather_data env.db valid env.now).1)) := by
  constructor
  · intro db recs now n h
    unfold store_weather_data at h ⊢
    by_cases he : recs.isEmpty
    · rw [if_pos he] at h ⊢
      have hnil : recs = [] := List.isEmpty_iff.mp he
      rw [hnil]
      exact List.Forall₂.nil
    · rw [if_neg he] at h ⊢
      cases hp : storeLoop now recs with
      | mk recs2 res =>
        rw [hp] at h
        cases res with
        | error e => exact Except.noConfusion h
        | ok rows =>
          have hmut := storeLoop_ok_mutated now recs rows (by rw [hp])
          rw [hp] at hmut
          exact List.Forall₂.imp (fun a b hab => mutRec_ok_shape hab) hmut
  · intro env valid n h1 h2 hf h4 hs
    have h2e : env.fetched.isEmpty = false := by
      cases henv : env.fetched with
      | nil => exact absurd henv h2
      | cons a l => rfl
    have h4e : valid.isEmpty = false := by
      cases hv : valid with
      | nil => exact absurd hv h4
      | cons a l => rfl
    have heta : store_weather_data env.db valid env.now =
        ((store_weather_data env.db valid env.now).1,
         (store_weather_data env.db valid env.now).2.1,
         (store_weather_data env.db valid env.now).2.2) := rfl
    simp only [run_single_collection, h1, h2e, hf, h4e]
    rw [heta, hs]
    cases env.uploadErr <;> simp

/-- C10 (witness) — the theorem at a concrete batch whose record carries a
Unix-numeric timestamp, and at the concrete sink-failure cycle. -/
theorem store_mutation_observed_witness :
    ((store_weather_data [] [recParis1] 0).2.1 = .ok 1 ∧
     List.Forall₂
       (fun r r2 => r2 = { r with timestamp := tsRewriteSpec r.timestamp 0 })
       [recParis1] (store_weather_data [] [recParis1] 0).1) ∧
    ((run_single_collection envSinkFail).2.uploadArg =
      some ((store_weather_data envSinkFail.db [cleanParis1] envSinkFail.now).1)) :=
  ⟨⟨by decide, store_mutation_observed.1 [] [recParis1] 0 1 (by decide)⟩,
   store_mutation_observed.2 envSinkFail [cleanParis1] 1 rfl (by decide)
     (by decide) (by decide) (by decide)⟩

/-- C3 — when the preflight connectivity probe reports unreachable, the
cycle terminates immediately with status error and a populated error
message, no fetch, validate, store or upload step is attempted, and the
database is untouched. -/
theorem run_preflight_error (env : PipeEnv) (h : env.connOK = false) :
    (run_single_collection env).1.status = "error" ∧
    (run_single_collection env).1.error =
      some "Failed to connect to the weather API" ∧
    (run_single_collection env).2.fetchAttempted = false ∧
    (run_single_collection env).2.validateAttempted = false ∧
    (run_single_collection env).2.storeArg = none ∧
    (run_single_collection env).2.uploadArg = none ∧
    (run_single_collection env).2.dbAfter = env.db := by
  simp [run_single_collection, h]

/-- C3 (witness) — the theorem at the concrete unreachable-probe cycle. -/
theorem run_preflight_error_witness :
    envConnFail.connOK = false ∧
    ((run_single_collection envConnFail).1.status = "error" ∧
     (run_single_collection envConnFail).1.error =
       some "Failed to connect to the weather API" ∧
     (run_single_collection envConnFail).2.fetchAttempted = false ∧
     (run_single_collection envConnFail).2.validateAttempted = false ∧
     (run_single_collection envConnFail).2.storeArg = none ∧
     (run_single_collection envConnFail).2.uploadArg = none ∧
     (run_single_collection envConnFail).2.dbAfter = envConnFail.db) :=
  ⟨rfl, run_preflight_error envConnFail rfl⟩

/-- C2 — when the fetch step returns zero records, the cycle terminates
with status failed (not error, and with no error message), the result
dictionary carries no stored count, no store or upload step is attempted,
and the database is unchanged (zero records stored). -/
theorem run_empty_fetch_failed (env : PipeEnv) (h1 : env.connOK = true)
    (h2 : env.fetched = []) :
    (run_single_collection env).1.status = "failed" ∧
    (run_single_collection env).1.error = none ∧
    (run_single_collection env).1.records_stored = none ∧
    (run_single_collection env).2.storeArg = none ∧
    (run_single_collection env).2.uploadArg = none ∧
    (run_single_collection env).2.dbAfter = env.db ∧
    (run_single_collection env).2.validateAttempted = false := by
  simp [run_single_collection, h1, h2]

/-- C2 (witness) — the theorem at the concrete zero-record cycle. -/
theorem run_empty_fetch_failed_witness :
    envNoData.connOK = true ∧ envNoData.fetched = [] ∧
    ((run_single_collection envNoData).1.status = "failed" ∧
     (run_single_collection envNoData).1.error = none ∧
     (run_single_collection envNoData).1.records_stored = none ∧
     (run_single_collection envNoData).2.storeArg = none ∧
     (run_single_collection envNoData).2.uploadArg = none ∧
     (run_single_collection envNoData).2.dbAfter = envNoData.db ∧
     (run_single_collection envNoData).2.validateAttempted = false) :=
  ⟨rfl, rfl, run_empty_fetch_failed envNoData rfl rfl⟩

/-- C1 (counterexample) — a cycle in which local storage succeeds and the
warehouse append raises does not end in success with zero uploads: the
upload call sits inside the same try block as the rest of the cycle, so
its exception reaches the outer handler and the cycle ends in error. -/
theorem sink_failure_changes_status_ce :
    envSinkFail.uploadErr.isSome = true ∧
    filter_valid_records envSinkFail.fetched = .ok [cleanParis1] ∧
    (store_weather_data envSinkFail.db [cleanParis1] envSinkFail.now).2.1 = .ok 1 ∧
    (run_single_collection envSinkFail).1.status = "error" ∧
    ¬((run_single_collection envSinkFail).1.status = "success" ∧
      (run_single_collection envSinkFail).1.records_uploaded = some 0) := by
  decide

/-- C1 (amended) — when local storage succeeds and the warehouse append
raises, the cycle terminates with status error carrying the sink error
message (the failure is caught only by the cycle-level handler and does
change the terminal status), the result dictionary has no uploaded count,
and the locally committed records remain in the database. -/
theorem run_sink_failure_yields_error (env : PipeEnv) (valid : List Rec)
    (e : String) (n : ℕ) (h1 : env.connOK = true) (h2 : env.fetched ≠ [])
    (hf : filter_valid_records env.fetched = .ok valid) (h4 : valid ≠ [])
    (hs : (store_weather_data env.db valid env.now).2.1 = .ok n)
    (hu : env.uploadErr = some e) :
    (run_single_collection env).1.status = "error" ∧
    (run_single_collection env).1.error = some e ∧
    (run_single_collection env).1.records_uploaded = none ∧
    (run_single_collection env).2.dbAfter =
      (store_weather_data env.db valid env.now).2.2 := by
  have h2e : env.fetched.isEmpty = false := by
    cases henv : env.fetched with
    | nil => exact absurd henv h2
    | cons a l => rfl
  have h4e : valid.isEmpty = false := by
    cases hv : valid with
    | nil => exact absurd hv h4
    | cons a l => rfl
  have heta : store_weather_data env.db valid env.now =
      ((store_weather_data env.db valid env.now).1,
       (store_weather_data env.db valid env.now).2.1,
       (store_weather_data env.db valid env.now).2.2) := rfl
  simp only [run_single_collection, h1, h2e, hf, h4e]
  rw [heta, hs, hu]
  simp

/-- C1 (witness) — the amended theorem at the concrete sink-failure
cycle. -/
theorem run_sink_failure_yields_error_witness :
    (run_single_collection envSinkFail).1.status = "error" ∧
    (run_single_collection envSinkFail).1.error = some "bigquery unavailable" ∧
    (run_single_collection envSinkFail).1.records_uploaded = none ∧
    (run_single_collection envSinkFail).2.dbAfter =
      (store_weather_data envSinkFail.db [cleanParis1] envSinkFail.now).2.2 :=
  run_sink_failure_yields_error envSinkFail [cleanParis1] "bigquery unavailable" 1
    rfl (by decide) (by decide) (by decide) (by decide) rfl

/-! ## Lemmas: first-seen-per-city deduplication over the sorted scan -/

theorem dedupeByCity_sub :
    ∀ (L : List Row) (seen : List String) (r : Row),
      r ∈ dedupeByCity L seen → r ∈ L ∧ r.city ∉ seen := by
  intro L
  induction L with
  | nil => intro seen r h; simp [dedupeByCity] at h
  | cons x xs ih =>
    intro seen r h
    rw [dedupeByCity] at h
    by_cases hx : x.city ∈ seen
    · rw [if_pos hx] at h
      obtain ⟨hmem, hns⟩ := ih seen r h
      exact ⟨List.mem_cons_of_mem x hmem, hns⟩
    · rw [if_neg hx] at h
      rcases List.mem_cons.mp h with h | h
      · subst h; exact ⟨List.mem_cons_self _ _, hx⟩
      · obtain ⟨hmem, hns⟩ := ih (x.city :: seen) r h
        exact ⟨List.mem_cons_of_mem x hmem,
          fun hc => hns (List.mem_cons_of_mem _ hc)⟩

theorem dedupeByCity_nodup :
    ∀ (L : List Row) (seen : List String),
      ((dedupeByCity L seen).map Row.city).Nodup := by
  intro L
  induction L with
  | nil => intro seen; simp [dedupeByCity]
  | cons x xs ih =>
    intro seen
    rw [dedupeByCity]
    by_cases hx : x.city ∈ seen
    · rw [if_pos hx]; exact ih seen
    · rw [if_neg hx]
      simp only [List.map_cons, List.nodup_cons]
      refine ⟨?_, ih (x.city :: seen)⟩
      intro hc
      obtain ⟨r, hr, hcity⟩ := List.mem_map.mp hc
      have hns := (dedupeByCity_sub xs (x.city :: seen) r hr).2
      apply hns
      rw [hcity]
      exact List.mem_cons_self _ _

theorem dedupeByCity_covers :
    ∀ (L : List Row) (seen : List String) (c : String),
      (∃ r ∈ L, r.city = c) →
      c ∈ seen ∨ ∃ r2 ∈ dedupeByCity L seen, r2.city = c := by
  intro L
  induction L with
  | nil => rintro seen c ⟨r, hr, _⟩; cases hr
  | cons x xs ih =>
    rintro seen c ⟨r, hr, hc⟩
    rw [dedupeByCity]
    by_cases hx : x.city ∈ seen
    · rw [if_pos hx]
      rcases List.mem_cons.mp hr with h | h
      · subst h; exact Or.inl (hc ▸ hx)
      · exact ih seen c ⟨r, h, hc⟩
    · rw [if_neg hx]
      rcases List.mem_cons.mp hr with h | h
      · subst h; exact Or.inr ⟨r, List.mem_cons_self _ _, hc⟩
      · rcases ih (x.city :: seen) c ⟨r, h, hc⟩ with hin | ⟨r2, hr2, hc2⟩
        · rcases List.mem_cons.mp hin with he | he
          · exact Or.inr ⟨x, List.mem_cons_self _ _, he.symm⟩
          · exact Or.inl he
        · exact Or.inr ⟨r2, List.mem_cons_of_mem x hr2, hc2⟩

theorem dedupeByCity_max :
    ∀ (L : List Row) (seen : List String),
      List.Pairwise latestOrder L →
      ∀ r ∈ dedupeByCity L seen, ∀ r2 ∈ L, r2.city = r.city →
        r2.timestamp ≤ r.timestamp := by
  intro L
  induction L with
  | nil => intro seen _ r h; simp [dedupeByCity] at h
  | cons x xs ih =>
    intro seen hpw r hr r2 hr2 hcity
    obtain ⟨hx_all, hxs_pw⟩ := List.pairwise_cons.mp hpw
    rw [dedupeByCity] at hr
    by_cases hx : x.city ∈ seen
    · rw [if_pos hx] at hr
      rcases List.mem_cons.mp hr2 with h2 | h2
      · exfalso
        have hns := (dedupeByCity_sub xs seen r hr).2
        subst h2
        exact hns (hcity ▸ hx)
      · exact ih seen hxs_pw r hr r2 h2 hcity
    · rw [if_neg hx] at hr
      rcases List.mem_cons.mp hr with h | h
      · subst h
        rcases List.mem_cons.mp hr2 with h2 | h2
        · rw [h2]
        · rcases hx_all r2 h2 with hlt | ⟨heq, hle⟩
          · exact absurd (hcity ▸ hlt) (lt_irrefl _)
          · exact hle
      · have hns := (dedupeByCity_sub xs (x.city :: seen) r h).2
        rcases List.mem_cons.mp hr2 with h2 | h2
        · exfalso
          subst h2
          exact hns (hcity ▸ List.mem_cons_self _ _)
        · exact ih (x.city :: seen) hxs_pw r h r2 h2 hcity

theorem get_latest_props (db : List Row) :
    ((get_latest_weather db none).map Row.city).Nodup ∧
    (∀ r ∈ get_latest_weather db none, r ∈ db ∧
       ∀ r2 ∈ db, r2.city = r.city → r2.timestamp ≤ r.timestamp) ∧
    (∀ c, (∃ r ∈ db, r.city = c) ↔
       ∃ r ∈ get_latest_weather db none, r.city = c) ∧
    (∀ (pat : String) (r : Row), pat ≠ "" →
       r ∈ get_latest_weather db (some pat) →
       ilikeMatch r.city pat = true ∧ r ∈ db) := by
  have hperm := List.perm_insertionSort latestOrder db
  have hsort := List.sorted_insertionSort latestOrder db
  refine ⟨?_, ?_, ?_, ?_⟩
  · exact dedupeByCity_nodup _ []
  · intro r hr
    obtain ⟨hmem, _⟩ := dedupeByCity_sub _ [] r hr
    refine ⟨hperm.mem_iff.mp hmem, ?_⟩
    intro r2 hr2 hc
    have hr2s : r2 ∈ List.insertionSort latestOrder db := hperm.mem_iff.mpr hr2
    exact dedupeByCity_max _ [] hsort r hr r2 hr2s hc
  · intro c
    constructor
    · rintro ⟨r, hr, hc⟩
      have hrs : r ∈ List.insertionSort latestOrder db := hperm.mem_iff.mpr hr
      rcases dedupeByCity_covers _ [] c ⟨r, hrs, hc⟩ with hin | hex
      · exact absurd hin (List.not_mem_nil c)
      · exact hex
    · rintro ⟨r, hr, hc⟩
      obtain ⟨hmem, _⟩ := dedupeByCity_sub _ [] r hr
      exact ⟨r, hperm.mem_iff.mp hmem, hc⟩
  · intro pat r hpat hr
    simp only [get_latest_weather] at hr
    rw [if_neg hpat] at hr
    obtain ⟨hmem, _⟩ :=
      dedupeByCity_sub _ [] r hr
    have hperm2 := List.perm_insertionSort latestOrder
      (db.filter (fun r => ilikeMatch r.city pat))
    have hf : r ∈ db.filter (fun r => ilikeMatch r.city pat) :=
      hperm2.mem_iff.mp hmem
    have hmf := List.mem_filter.mp hf
    exact ⟨hmf.2, hmf.1⟩

/-- C8 — after a successful store of a batch into an empty table, latest()
returns one row per distinct city (no duplicate city names), each returned
row belongs to the table and carries the maximum timestamp among the rows
of its city, exactly the cities of the table appear, and the optional
location argument restricts the result to cities containing the given
substring case-insensitively. -/
theorem latest_after_store (recs : List Rec) (now : ℚ) (n : ℕ)
    (_ok : (store_weather_data [] recs now).2.1 = .ok n) :
    ((get_latest_weather (store_weather_data [] recs now).2.2 none).map
        Row.city).Nodup ∧
    (∀ r ∈ get_latest_weather (store_weather_data [] recs now).2.2 none,
       r ∈ (store_weather_data [] recs now).2.2 ∧
       ∀ r2 ∈ (store_weather_data [] recs now).2.2, r2.city = r.city →
         r2.timestamp ≤ r.timestamp) ∧
    (∀ c, (∃ r ∈ (store_weather_data [] recs now).2.2, r.city = c) ↔
       ∃ r ∈ get_latest_weather (store_weather_data [] recs now).2.2 none,
         r.city = c) ∧
    (∀ (pat : String) (r : Row), pat ≠ "" →
       r ∈ get_latest_weather (store_weather_data [] recs now).2.2 (some pat) →
       ilikeMatch r.city pat = true ∧
       r ∈ (store_weather_data [] recs now).2.2) :=
  get_latest_props _

/-- C8 (witness) — the theorem at a concrete stored batch of two Paris
rows and one London row. -/
theorem latest_after_store_witness :
    (store_weather_data [] recsLatest 0).2.1 = .ok 3 ∧
    (∀ r ∈ get_latest_weather (store_weather_data [] recsLatest 0).2.2 none,
       r ∈ (store_weather_data [] recsLatest 0).2.2 ∧
       ∀ r2 ∈ (store_weather_data [] recsLatest 0).2.2, r2.city = r.city →
         r2.timestamp ≤ r.timestamp) :=
  ⟨by decide, (latest_after_store recsLatest 0 3 (by decide)).2.1⟩

/-- C9 — every record history returns lies within the trailing day window
(timestamp at least now minus N days) and matches the location substring
case-insensitively; the result is in descending timestamp order; and it is
a permutation of all matching rows of the table — no cap on the result
size. -/
theorem history_window_properties (db : List Row) (loc : String) (days : ℤ)
    (now : ℚ) :
    (∀ r ∈ get_weather_history db loc days now,
       r ∈ db ∧ ilikeMatch r.city loc = true ∧
       now - 86400 * (days : ℚ) ≤ r.timestamp) ∧
    List.Pairwise histOrder (get_weather_history db loc days now) ∧
    (get_weather_history db loc days now).Perm
      (db.filter (fun r =>
        ilikeMatch r.city loc &&
        decide (now - 86400 * (days : ℚ) ≤ r.timestamp))) := by
  have hperm := List.perm_insertionSort histOrder
    (db.filter (fun r =>
      ilikeMatch r.city loc && decide (now - 86400 * (days : ℚ) ≤ r.timestamp)))
  refine ⟨?_, ?_, hperm⟩
  · intro r hr
    have hf : r ∈ db.filter (fun r =>
        ilikeMatch r.city loc &&
        decide (now - 86400 * (days : ℚ) ≤ r.timestamp)) :=
      hperm.mem_iff.mp hr
    have hmf := List.mem_filter.mp hf
    have hand := (Bool.and_eq_true _ _).mp hmf.2
    exact ⟨hmf.1, hand.1, of_decide_eq_true hand.2⟩
  · exact List.sorted_insertionSort histOrder _

end WeatherPipeline
